import Mathlib

/-!
Verification of the JSON sensitive-data redaction engine
(`redact-sensitive.js`): the rule model (key-name substring rules, exact
property-name rules, value-pattern rules), the recursive tree walk, and the
configuration loading/merging, shallowly embedded in Lean.
-/

namespace RedactSensitive

/-! ## Regular expressions

JavaScript regular-expression literals in the source are modelled by a small
regex syntax (character classes, concatenation, alternation, star) together
with anchoring flags (`^`, `$`) and the `i` flag recorded on the side.
Matching is by Brzozowski derivatives. -/

inductive Regex where
  | eps : Regex
  | cls (cs : List Char) : Regex
  | cat (r s : Regex) : Regex
  | alt (r s : Regex) : Regex
  | star (r : Regex) : Regex
deriving DecidableEq

def nullable : Regex → Bool
  | .eps => true
  | .cls _ => false
  | .cat r s => nullable r && nullable s
  | .alt r s => nullable r || nullable s
  | .star _ => true

def deriv : Regex → Char → Regex
  | .eps, _ => .cls []
  | .cls cs, c => if cs.contains c then .eps else .cls []
  | .cat r s, c =>
      if nullable r then .alt (.cat (deriv r c) s) (deriv s c)
      else .cat (deriv r c) s
  | .alt r s, c => .alt (deriv r c) (deriv s c)
  | .star r, c => .cat (deriv r c) (.star r)

/-- `matchList r l` : the whole character list `l` is in the language of `r`. -/
def matchList (r : Regex) (l : List Char) : Bool :=
  nullable (l.foldl deriv r)

/-- Some initial segment of `l` (possibly empty) matches `r`. -/
def matchFromStart (r : Regex) : List Char → Bool
  | [] => nullable r
  | c :: cs => nullable r || matchFromStart (deriv r c) cs

/-- Some final segment of `l` (possibly empty) matches `r` entirely. -/
def matchToEnd (r : Regex) : List Char → Bool
  | [] => nullable r
  | c :: cs => matchList r (c :: cs) || matchToEnd r cs

/-- Some contiguous segment of `l` (possibly empty) matches `r`. -/
def matchSomewhere (r : Regex) : List Char → Bool
  | [] => nullable r
  | c :: cs => matchFromStart r (c :: cs) || matchSomewhere r cs

/-- A compiled JavaScript pattern: the core regex plus whether the literal was
anchored with `^` at the start, `$` at the end, and whether it carried the
case-insensitive `i` flag (in which case the core regex is written over
lowercase characters and the subject is lowercased first). -/
structure Pattern where
  re : Regex
  anchorStart : Bool
  anchorEnd : Bool
  ignoreCase : Bool
deriving DecidableEq

/-- ASCII lowercasing of a string; models JavaScript `toLowerCase` on the
ASCII identifiers and patterns this program uses. -/
def lowerStr (s : String) : String :=
  String.mk (s.data.map Char.toLower)

def prepChars (p : Pattern) (s : String) : List Char :=
  if p.ignoreCase then (lowerStr s).data else s.data

/-- JavaScript `RegExp.prototype.test`: searches for a match anywhere in the
subject, constrained by the pattern's own anchors. -/
def jsTest (p : Pattern) (s : String) : Bool :=
  let l := prepChars p s
  if p.anchorStart then
    if p.anchorEnd then matchList p.re l else matchFromStart p.re l
  else
    if p.anchorEnd then matchToEnd p.re l else matchSomewhere p.re l

/-- Modelled from the spec's words (§4.3, Glossary): a pattern "applied as a
full-pattern test against the whole string (not a partial search)". Compared
against `jsTest`, the behaviour of the code. -/
def fullPatternTest (p : Pattern) (s : String) : Bool :=
  matchList p.re (prepChars p s)

/-! ## JSON values

`null`, booleans, numbers, strings, arrays and string-keyed objects, as a
mutual inductive so every function on them is structural (JSON numbers are
carried opaquely; the engine never inspects them). -/

mutual
inductive Json where
  | null : Json
  | bool (b : Bool) : Json
  | num (n : Int) : Json
  | str (s : String) : Json
  | arr (items : JsonArr) : Json
  | obj (entries : JsonObj) : Json
deriving DecidableEq

inductive JsonArr where
  | nil : JsonArr
  | cons (head : Json) (tail : JsonArr) : JsonArr
deriving DecidableEq

inductive JsonObj where
  | nil : JsonObj
  | cons (key : String) (val : Json) (tail : JsonObj) : JsonObj
deriving DecidableEq
end

/-- JavaScript `value !== null && typeof value === "object"`: arrays and
objects, and nothing else. -/
def Json.isContainer : Json → Bool
  | .arr _ => true
  | .obj _ => true
  | _ => false

def JsonArr.length : JsonArr → Nat
  | .nil => 0
  | .cons _ tl => tl.length + 1

def JsonArr.get? : JsonArr → Nat → Option Json
  | .nil, _ => none
  | .cons hd _, 0 => some hd
  | .cons _ tl, n + 1 => tl.get? n

/-! ## Configuration (the RuleSet) -/

/-- The configuration object handed to the engine (the spec's RuleSet):
`sensitiveKeys` are the key-name substring patterns, `sensitiveProperties`
the exact property names, `sensitivePatterns` the compiled value patterns. -/
structure Config where
  sensitiveKeys : List String
  sensitiveProperties : List String
  sensitivePatterns : List Pattern
  redactionText : String
  preserveKeys : Bool
deriving DecidableEq

def digitChars : List Char :=
  ['0', '1', '2', '3', '4', '5', '6', '7', '8', '9']

def hexChars : List Char :=
  ['a', 'b', 'c', 'd', 'e', 'f'] ++ digitChars

/-- `r?` -/
def opt (r : Regex) : Regex := .alt .eps r

/-- `r` repeated exactly `n` times. -/
def rep (r : Regex) : Nat → Regex
  | 0 => .eps
  | n + 1 => .cat r (rep r n)

/-- A regex matching exactly the characters of `s` in order. -/
def litRe (s : String) : Regex :=
  s.data.foldr (fun c r => .cat (.cls [c]) r) .eps

def digitRe : Regex := .cls digitChars

/-- `/^\d\x7b4,6\x7d$/` : PIN-like numbers (4 to 6 digits). -/
def pinPattern : Pattern :=
  ⟨.cat digitRe (.cat digitRe (.cat digitRe (.cat digitRe
      (.cat (opt digitRe) (opt digitRe))))), true, true, false⟩

/-- `/^[a-f0-9]\x7b8\x7d-...$/i` : UUID format. -/
def uuidPattern : Pattern :=
  ⟨.cat (rep (.cls hexChars) 8) (.cat (.cls ['-'])
    (.cat (rep (.cls hexChars) 4) (.cat (.cls ['-'])
    (.cat (rep (.cls hexChars) 4) (.cat (.cls ['-'])
    (.cat (rep (.cls hexChars) 4) (.cat (.cls ['-'])
    (rep (.cls hexChars) 12)))))))), true, true, true⟩

/-- `/^testpass123!$/i` : example password pattern. -/
def testpassPattern : Pattern := ⟨litRe "testpass123!", true, true, true⟩

/-- `/^fakepassword456$/i` : example password history pattern. -/
def fakepassPattern : Pattern := ⟨litRe "fakepassword456", true, true, true⟩

/-- `/^test@example\.com$/i` : example email pattern. -/
def exampleEmailPattern : Pattern := ⟨litRe "test@example.com", true, true, true⟩

/-- `DEFAULT_CONFIG` from the source, verbatim. -/
def DEFAULT_CONFIG : Config where
  sensitiveKeys :=
    ["password", "pin", "email", "uuid", "secret", "token", "key",
     "credential", "auth", "login", "passcode", "security"]
  sensitiveProperties :=
    ["password", "pin", "emailAddress", "uuid", "secretKey", "accessToken",
     "refreshToken", "apiKey", "privateKey", "creditCardNumber", "cvv",
     "ssn", "socialSecurityNumber"]
  sensitivePatterns :=
    [pinPattern, uuidPattern, testpassPattern, fakepassPattern,
     exampleEmailPattern]
  redactionText := "[REDACTED]"
  preserveKeys := false

/-! ## Key and value classification -/

/-- `startsWithL p l` : `p` is an initial segment of `l`. -/
def startsWithL : List Char → List Char → Bool
  | [], _ => true
  | _ :: _, [] => false
  | p :: ps, c :: cs => p == c && startsWithL ps cs

/-- `hasSub needle hay` : `needle` occurs contiguously inside `hay`
(JavaScript `String.prototype.includes`). -/
def hasSub (needle : List Char) : List Char → Bool
  | [] => startsWithL needle []
  | c :: cs => startsWithL needle (c :: cs) || hasSub needle cs

/-- `isSensitiveKey` from the source: lowercase the key, test exact
(case-sensitive) membership in `sensitiveProperties`, else test whether any
lowercased `sensitiveKeys` entry is a substring of the lowercased key. -/
def isSensitiveKey (key : String) (config : Config) : Bool :=
  let keyLower := lowerStr key
  config.sensitiveProperties.contains keyLower
    || config.sensitiveKeys.any fun pat =>
        hasSub (lowerStr pat).data keyLower.data

/-- `isSensitiveValue` from the source: `false` for every non-string, else
whether some pattern's `test` succeeds on the string. -/
def isSensitiveValue (value : Json) (config : Config) : Bool :=
  match value with
  | .str s => config.sensitivePatterns.any fun pat => jsTest pat s
  | _ => false

/-! ## The redaction engine

`redactObject` from the source. The `parentPath` parameter of the original
only feeds dry-run display strings and never influences the produced value,
so it is not part of the embedding. -/

mutual
def redactObject (v : Json) (config : Config) : Json :=
  match v with
  | .null => .null
  | .bool b => .bool b
  | .num n => .num n
  | .str s => .str s
  | .arr items => .arr (redactArr items config)
  | .obj entries => .obj (redactEntries entries config)

def redactArr (items : JsonArr) (config : Config) : JsonArr :=
  match items with
  | .nil => .nil
  | .cons v rest => .cons (redactObject v config) (redactArr rest config)

def redactEntries (entries : JsonObj) (config : Config) : JsonObj :=
  match entries with
  | .nil => .nil
  | .cons k v rest =>
    if isSensitiveKey k config then
      if config.preserveKeys then
        .cons k (.str config.redactionText) (redactEntries rest config)
      else
        redactEntries rest config
    else if v.isContainer then
      .cons k (redactObject v config) (redactEntries rest config)
    else if isSensitiveValue v config then
      .cons k (.str config.redactionText) (redactEntries rest config)
    else
      .cons k v (redactEntries rest config)
end

/-! ## Configuration loading (`loadConfig`)

`loadConfig` reads a JSON file and merges it onto `DEFAULT_CONFIG` with an
object spread. The file I/O and `JSON.parse` are external; their outcome is
modelled by `ConfigSource`. A user file carries pattern entries as JSON
strings, and the spread copies them as they are — the merged object's
`sensitivePatterns` field is therefore dynamically typed, modelled by
`JsPatternVal`. -/

/-- A value sitting in the `sensitivePatterns` field of the merged config
object: either a compiled regular expression (from `DEFAULT_CONFIG`) or a
raw string (copied from the user's JSON file by the spread). -/
inductive JsPatternVal where
  | regex (p : Pattern) : JsPatternVal
  | rawStr (s : String) : JsPatternVal
deriving DecidableEq

def JsPatternVal.isRegex : JsPatternVal → Bool
  | .regex _ => true
  | .rawStr _ => false

/-- The configuration object as produced by `loadConfig` (dynamically typed
`sensitivePatterns`). -/
structure JsConfig where
  sensitiveKeys : List String
  sensitiveProperties : List String
  sensitivePatterns : List JsPatternVal
  redactionText : String
  preserveKeys : Bool
deriving DecidableEq

/-- A parsed user configuration file: each recognized field is present or
absent; `sensitivePatterns` entries are JSON strings. -/
structure UserConfig where
  sensitiveKeys : Option (List String) := none
  sensitiveProperties : Option (List String) := none
  sensitivePatterns : Option (List String) := none
  redactionText : Option String := none
  preserveKeys : Option Bool := none
deriving DecidableEq

/-- The object spread `\x7b ...DEFAULT_CONFIG, ...userConfig \x7d`: a field
present in the user object fully replaces the default, an absent field keeps
the default. No compilation happens: user-supplied pattern strings are
copied as raw strings. -/
def spreadMerge (base : Config) (user : UserConfig) : JsConfig where
  sensitiveKeys := user.sensitiveKeys.getD base.sensitiveKeys
  sensitiveProperties := user.sensitiveProperties.getD base.sensitiveProperties
  sensitivePatterns :=
    match user.sensitivePatterns with
    | none => base.sensitivePatterns.map .regex
    | some ss => ss.map .rawStr
  redactionText := user.redactionText.getD base.redactionText
  preserveKeys := user.preserveKeys.getD base.preserveKeys

/-- `DEFAULT_CONFIG` viewed as the dynamically-typed config object. -/
def defaultJsConfig : JsConfig := spreadMerge DEFAULT_CONFIG {}

/-- The outcome of the external read-and-parse of the `--config` file:
either it threw (missing file, unreadable file, or invalid JSON) or it
produced a parsed user configuration. -/
inductive ConfigSource where
  | readError : ConfigSource
  | parsed (user : UserConfig) : ConfigSource

/-- `loadConfig` from the source: no config path gives the defaults, a
throwing read or parse is caught and gives the defaults, and a parsed file
is spread-merged onto the defaults. -/
def loadConfig : Option ConfigSource → JsConfig
  | none => defaultJsConfig
  | some .readError => defaultJsConfig
  | some (.parsed user) => spreadMerge DEFAULT_CONFIG user

/-- JavaScript `pat.test(s)` on a dynamically-typed pattern value: a compiled
regular expression tests the string; on a raw string the call throws
(`pat.test` is not a function), modelled as `none`. -/
def dynTest : JsPatternVal → String → Option Bool
  | .regex p, s => some (jsTest p s)
  | .rawStr _, _ => none

/-- `Array.prototype.some(pat => pat.test(s))` over dynamically-typed
patterns, short-circuiting on the first `true` and propagating a thrown
`TypeError` as `none`. -/
def dynAnyTest : List JsPatternVal → String → Option Bool
  | [], _ => some false
  | p :: rest, s =>
    match dynTest p s with
    | none => none
    | some true => some true
    | some false => dynAnyTest rest s

/-- `isSensitiveValue` run against a config produced by `loadConfig`:
non-strings are never tested, strings are tested against each pattern value
in order; `none` is a thrown `TypeError`. -/
def dynIsSensitiveValue (value : Json) (config : JsConfig) : Option Bool :=
  match value with
  | .str s => dynAnyTest config.sensitivePatterns s
  | _ => some false

/-! ## Specification-side predicates -/

/-- Declarative meaning of a successful JavaScript `test`: some contiguous
segment of the (case-prepared) subject is in the pattern's language, the
segment touching the start when the pattern is `^`-anchored and the end when
it is `$`-anchored. -/
def jsMatches (p : Pattern) (s : String) : Prop :=
  ∃ u v w, prepChars p s = u ++ v ++ w
    ∧ (p.anchorStart = true → u = [])
    ∧ (p.anchorEnd = true → w = [])
    ∧ matchList p.re v = true

/-- `v` is the string `rt`. -/
def Json.isStrEq (v : Json) (rt : String) : Bool :=
  match v with
  | .str s => s == rt
  | _ => false

mutual
/-- The input is free of sensitive material: no key anywhere satisfies
`isSensitiveKey` and no object-property value anywhere satisfies
`isSensitiveValue`. -/
def cleanV (v : Json) (config : Config) : Bool :=
  match v with
  | .arr items => cleanA items config
  | .obj entries => cleanE entries config
  | _ => true

def cleanA (items : JsonArr) (config : Config) : Bool :=
  match items with
  | .nil => true
  | .cons v rest => cleanV v config && cleanA rest config

def cleanE (entries : JsonObj) (config : Config) : Bool :=
  match entries with
  | .nil => true
  | .cons k v rest =>
    !isSensitiveKey k config
      && (if v.isContainer then cleanV v config
          else !isSensitiveValue v config)
      && cleanE rest config
end

mutual
/-- The output invariant: in every object occurring anywhere in the value, a
key satisfying `isSensitiveKey` occurs only when `preserveKeys` is true, and
then its value is exactly the redaction text. -/
def goodV (v : Json) (config : Config) : Bool :=
  match v with
  | .arr items => goodA items config
  | .obj entries => goodE entries config
  | _ => true

def goodA (items : JsonArr) (config : Config) : Bool :=
  match items with
  | .nil => true
  | .cons v rest => goodV v config && goodA rest config

def goodE (entries : JsonObj) (config : Config) : Bool :=
  match entries with
  | .nil => true
  | .cons k v rest =>
    (if isSensitiveKey k config then
        config.preserveKeys && v.isStrEq config.redactionText
      else true)
      && goodV v config && goodE rest config
end

/-! ## Search semantics lemmas -/

@[simp] theorem matchList_nil (r : Regex) : matchList r [] = nullable r := rfl

@[simp] theorem matchList_cons (r : Regex) (c : Char) (cs : List Char) :
    matchList r (c :: cs) = matchList (deriv r c) cs := rfl

theorem matchFromStart_iff (l : List Char) (r : Regex) :
    matchFromStart r l = true ↔ ∃ u v, l = u ++ v ∧ matchList r u = true := by
  induction l generalizing r with
  | nil =>
    constructor
    · intro h
      exact ⟨[], [], rfl, by simpa [matchFromStart] using h⟩
    · rintro ⟨u, v, huv, hm⟩
      rcases List.append_eq_nil.mp huv.symm with ⟨hu, _⟩
      subst hu
      simpa [matchFromStart] using hm
  | cons c cs ih =>
    constructor
    · intro h
      have h2 : nullable r = true ∨ matchFromStart (deriv r c) cs = true := by
        simpa [matchFromStart] using h
      rcases h2 with hn | hrest
      · exact ⟨[], c :: cs, rfl, by simpa using hn⟩
      · rcases (ih (deriv r c)).mp hrest with ⟨u, v, huv, hm⟩
        exact ⟨c :: u, v, by simp [huv], by simpa using hm⟩
    · rintro ⟨u, v, huv, hm⟩
      cases u with
      | nil =>
        simp only [matchFromStart, Bool.or_eq_true]
        exact Or.inl (by simpa using hm)
      | cons u0 us =>
        rcases List.cons_eq_cons.mp huv with ⟨hc, hcs⟩
        subst hc
        simp only [matchFromStart, Bool.or_eq_true]
        exact Or.inr ((ih (deriv r c)).mpr ⟨us, v, hcs, by simpa using hm⟩)

theorem matchToEnd_iff (l : List Char) (r : Regex) :
    matchToEnd r l = true ↔ ∃ u v, l = u ++ v ∧ matchList r v = true := by
  induction l with
  | nil =>
    constructor
    · intro h
      exact ⟨[], [], rfl, by simpa [matchToEnd] using h⟩
    · rintro ⟨u, v, huv, hm⟩
      rcases List.append_eq_nil.mp huv.symm with ⟨_, hv⟩
      subst hv
      simpa [matchToEnd] using hm
  | cons c cs ih =>
    constructor
    · intro h
      have h2 : matchList r (c :: cs) = true ∨ matchToEnd r cs = true := by
        simpa [matchToEnd] using h
      rcases h2 with hfull | hrest
      · exact ⟨[], c :: cs, rfl, hfull⟩
      · rcases ih.mp hrest with ⟨u, v, huv, hm⟩
        exact ⟨c :: u, v, by simp [huv], hm⟩
    · rintro ⟨u, v, huv, hm⟩
      cases u with
      | nil =>
        have hv : v = c :: cs := by simpa using huv.symm
        subst hv
        simp only [matchToEnd, Bool.or_eq_true]
        exact Or.inl hm
      | cons u0 us =>
        rcases List.cons_eq_cons.mp huv with ⟨hc, hcs⟩
        subst hc
        simp only [matchToEnd, Bool.or_eq_true]
        exact Or.inr (ih.mpr ⟨us, v, hcs, hm⟩)

theorem matchSomewhere_iff (l : List Char) (r : Regex) :
    matchSomewhere r l = true ↔
      ∃ u v w, l = u ++ v ++ w ∧ matchList r v = true := by
  induction l with
  | nil =>
    constructor
    · intro h
      exact ⟨[], [], [], rfl, by simpa [matchSomewhere] using h⟩
    · rintro ⟨u, v, w, huvw, hm⟩
      rcases List.append_eq_nil.mp huvw.symm with ⟨huv, _⟩
      rcases List.append_eq_nil.mp huv with ⟨_, hv⟩
      subst hv
      simpa [matchSomewhere] using hm
  | cons c cs ih =>
    constructor
    · intro h
      have h2 : matchFromStart r (c :: cs) = true ∨ matchSomewhere r cs = true := by
        simpa [matchSomewhere] using h
      rcases h2 with hpfx | hrest
      · rcases (matchFromStart_iff (c :: cs) r).mp hpfx with ⟨v, w, hvw, hm⟩
        exact ⟨[], v, w, by simpa using hvw, hm⟩
      · rcases ih.mp hrest with ⟨u, v, w, huvw, hm⟩
        exact ⟨c :: u, v, w, by simp [huvw], hm⟩
    · rintro ⟨u, v, w, huvw, hm⟩
      cases u with
      | nil =>
        simp only [matchSomewhere, Bool.or_eq_true]
        refine Or.inl ((matchFromStart_iff (c :: cs) r).mpr ⟨v, w, ?_, hm⟩)
        simpa using huvw
      | cons u0 us =>
        rcases List.cons_eq_cons.mp huvw with ⟨hc, hcs⟩
        subst hc
        simp only [matchSomewhere, Bool.or_eq_true]
        exact Or.inr (ih.mpr ⟨us, v, w, hcs, hm⟩)

theorem jsTest_iff (p : Pattern) (s : String) :
    jsTest p s = true ↔ jsMatches p s := by
  unfold jsTest jsMatches
  cases hs : p.anchorStart <;> cases he : p.anchorEnd <;>
    simp only [hs, he, if_true, if_false, Bool.false_eq_true, false_implies,
      true_implies, Bool.true_eq_false, eq_self_iff_true, true_and, and_true]
  · exact matchSomewhere_iff (prepChars p s) p.re
  · rw [matchToEnd_iff]
    constructor
    · rintro ⟨u, v, huv, hm⟩
      exact ⟨u, v, [], by simpa using huv, by simp, hm⟩
    · rintro ⟨u, v, w, huvw, hw, hm⟩
      subst hw
      exact ⟨u, v, by simpa using huvw, hm⟩
  · rw [matchFromStart_iff]
    constructor
    · rintro ⟨u, v, huv, hm⟩
      exact ⟨[], u, v, by simpa using huv, rfl, hm⟩
    · rintro ⟨u, v, w, huvw, hu, hm⟩
      subst hu
      exact ⟨v, w, by simpa using huvw, hm⟩
  · constructor
    · intro hm
      exact ⟨[], prepChars p s, [], by simp, rfl, rfl, hm⟩
    · rintro ⟨u, v, w, huvw, hu, hw, hm⟩
      subst hu
      subst hw
      rw [huvw]
      simpa using hm

/-! ## Engine lemmas -/

theorem redact_isContainer (config : Config) (v : Json) :
    (redactObject v config).isContainer = v.isContainer := by
  cases v <;> rfl

/-- Array redaction acts element-wise: position `i` of the output is exactly
the recursive redaction of position `i` of the input. -/
theorem redactArr_get (config : Config) :
    (items : JsonArr) → (i : Nat) →
      (redactArr items config).get? i
        = (items.get? i).map fun x => redactObject x config
  | .nil, _ => by simp [redactArr, JsonArr.get?]
  | .cons v rest, 0 => by simp [redactArr, JsonArr.get?]
  | .cons v rest, n + 1 => by
      simpa [redactArr, JsonArr.get?] using redactArr_get config rest n

theorem redactArr_length (config : Config) :
    (items : JsonArr) →
      (redactArr items config).length = items.length
  | .nil => rfl
  | .cons v rest => by
      simp [redactArr, JsonArr.length, redactArr_length config rest]

mutual
/-- Idempotence of the walker on any value, for every configuration. -/
theorem redactIdemV (config : Config) :
    (v : Json) → redactObject (redactObject v config) config = redactObject v config
  | .null => rfl
  | .bool _ => rfl
  | .num _ => rfl
  | .str _ => rfl
  | .arr items => by
      simp only [redactObject]
      rw [redactIdemA config items]
  | .obj entries => by
      simp only [redactObject]
      rw [redactIdemE config entries]

theorem redactIdemA (config : Config) :
    (items : JsonArr) → redactArr (redactArr items config) config = redactArr items config
  | .nil => rfl
  | .cons v rest => by
      simp only [redactArr]
      rw [redactIdemV config v, redactIdemA config rest]

theorem redactIdemE (config : Config) :
    (entries : JsonObj) →
      redactEntries (redactEntries entries config) config = redactEntries entries config
  | .nil => rfl
  | .cons k v rest => by
      by_cases hk : isSensitiveKey k config = true
      · by_cases hp : config.preserveKeys = true
        · simp [redactEntries, hk, hp, redactIdemE config rest]
        · simp [redactEntries, hk, hp, redactIdemE config rest]
      · by_cases hv : v.isContainer = true
        · simp [redactEntries, hk, hv, redact_isContainer,
            redactIdemV config v, redactIdemE config rest]
        · have hv' : v.isContainer = false := by simpa using hv
          have hstr : (Json.str config.redactionText).isContainer = false := rfl
          by_cases hsv : isSensitiveValue v config = true
          · cases hsv2 : isSensitiveValue (.str config.redactionText) config <;>
              simp [redactEntries, hk, hv', hsv, hsv2, hstr,
                redactIdemE config rest]
          · simp [redactEntries, hk, hv', hsv, redactIdemE config rest]
end

mutual
/-- Every value the walker returns satisfies the output invariant `goodV`. -/
theorem redactGoodV (config : Config) :
    (v : Json) → goodV (redactObject v config) config = true
  | .null => rfl
  | .bool _ => rfl
  | .num _ => rfl
  | .str _ => rfl
  | .arr items => by
      simpa [redactObject, goodV] using redactGoodA config items
  | .obj entries => by
      simpa [redactObject, goodV] using redactGoodE config entries

theorem redactGoodA (config : Config) :
    (items : JsonArr) → goodA (redactArr items config) config = true
  | .nil => rfl
  | .cons v rest => by
      simp [redactArr, goodA, redactGoodV config v, redactGoodA config rest]

theorem redactGoodE (config : Config) :
    (entries : JsonObj) → goodE (redactEntries entries config) config = true
  | .nil => rfl
  | .cons k v rest => by
      by_cases hk : isSensitiveKey k config = true
      · by_cases hp : config.preserveKeys = true
        · simp [redactEntries, hk, hp, goodE, goodV, Json.isStrEq,
            redactGoodE config rest]
        · simp [redactEntries, hk, hp, redactGoodE config rest]
      · by_cases hv : v.isContainer = true
        · simp [redactEntries, hk, hv, goodE, redactGoodV config v,
            redactGoodE config rest]
        · by_cases hsv : isSensitiveValue v config = true
          · simp [redactEntries, hk, hv, hsv, goodE, goodV,
              redactGoodE config rest]
          · have hgv : goodV v config = true := by
              cases v <;> simp_all [Json.isContainer, goodV]
            simp [redactEntries, hk, hv, hsv, goodE, hgv,
              redactGoodE config rest]
end

mutual
/-- On an input free of sensitive keys and sensitive property values, the
walker is the identity. -/
theorem cleanIdV (config : Config) :
    (v : Json) → cleanV v config = true → redactObject v config = v
  | .null, _ => rfl
  | .bool _, _ => rfl
  | .num _, _ => rfl
  | .str _, _ => rfl
  | .arr items, h => by
      simp only [redactObject]
      rw [cleanIdA config items (by simpa [cleanV] using h)]
  | .obj entries, h => by
      simp only [redactObject]
      rw [cleanIdE config entries (by simpa [cleanV] using h)]

theorem cleanIdA (config : Config) :
    (items : JsonArr) → cleanA items config = true → redactArr items config = items
  | .nil, _ => rfl
  | .cons v rest, h => by
      have h2 : cleanV v config = true ∧ cleanA rest config = true := by
        simpa [cleanA] using h
      simp only [redactArr]
      rw [cleanIdV config v h2.1, cleanIdA config rest h2.2]

theorem cleanIdE (config : Config) :
    (entries : JsonObj) → cleanE entries config = true → redactEntries entries config = entries
  | .nil, _ => rfl
  | .cons k v rest, h => by
      have h2 : (isSensitiveKey k config = false
          ∧ (if v.isContainer = true then cleanV v config = true
              else isSensitiveValue v config = false))
          ∧ cleanE rest config = true := by
        simpa [cleanE, Bool.not_eq_true'] using h
      rcases h2 with ⟨⟨hk, hv⟩, hrest⟩
      by_cases hc : v.isContainer = true
      · rw [if_pos hc] at hv
        simp [redactEntries, hk, hc, cleanIdV config v hv,
          cleanIdE config rest hrest]
      · rw [if_neg hc] at hv
        have hsv : isSensitiveValue v config = false := by
          simpa using hv
        simp [redactEntries, hk, hc, hsv, cleanIdE config rest hrest]
end

/-! ## Concrete inputs used by the claims -/

/-- `\x7b"password": "x", "keep": 1\x7d` -/
def passwordKeepObj : Json :=
  .obj (.cons "password" (.str "x") (.cons "keep" (.num 1) .nil))

/-- The default configuration with `preserveKeys` forced on (the
`--preserve-keys` flag). -/
def preserveConfig : Config := { DEFAULT_CONFIG with preserveKeys := true }

/-- `\x7b"items": ["12345", "hello"]\x7d` -/
def itemsExample : Json :=
  .obj (.cons "items"
    (.arr (.cons (.str "12345") (.cons (.str "hello") .nil))) .nil)

/-- A rule set whose only value pattern matches 4-to-6-digit strings. -/
def pinOnlyConfig : Config :=
  { DEFAULT_CONFIG with sensitivePatterns := [pinPattern] }

/-- The unanchored pattern `/a/`. -/
def partialPattern : Pattern := ⟨.cls ['a'], false, false, false⟩

/-- A rule set whose only value pattern is the unanchored `/a/`. -/
def partialConfig : Config :=
  { DEFAULT_CONFIG with sensitivePatterns := [partialPattern] }

/-- A user configuration file supplying only a value-pattern string. -/
def stringPatternUser : UserConfig := { sensitivePatterns := some ["^\\d+$"] }

/-- A user configuration file supplying only `sensitiveKeys: ["foo"]`. -/
def fooOnlyUser : UserConfig := { sensitiveKeys := some ["foo"] }

/-- `\x7b"name": "Alice", "items": [3]\x7d`: free of sensitive keys and
values under the default rules. -/
def cleanExample : Json :=
  .obj (.cons "name" (.str "Alice")
    (.cons "items" (.arr (.cons (.num 3) .nil)) .nil))

/-! ## The claims -/

/-- C1: for every rule set and every object property whose key is sensitive,
the walker emits `(key, redactionText)` when `preserveKeys` is true and
omits the key entirely when it is false, and in neither branch does the
result depend on the property's value (no recursion into it); in
particular, redacting `\x7b"password": "x", "keep": 1\x7d` under the default
rule set gives `\x7b"keep": 1\x7d`, and `\x7b"password": "[REDACTED]",
"keep": 1\x7d` with `preserveKeys` on. -/
theorem claim1_sensitive_key_branch (config : Config) (k : String)
    (h : isSensitiveKey k config = true) :
    (∀ v v' rest, redactEntries (.cons k v rest) config
        = redactEntries (.cons k v' rest) config)
    ∧ (∀ v rest, redactEntries (.cons k v rest) config
        = if config.preserveKeys then
            .cons k (.str config.redactionText) (redactEntries rest config)
          else redactEntries rest config)
    ∧ redactObject passwordKeepObj DEFAULT_CONFIG
        = .obj (.cons "keep" (.num 1) .nil)
    ∧ redactObject passwordKeepObj preserveConfig
        = .obj (.cons "password" (.str "[REDACTED]")
            (.cons "keep" (.num 1) .nil)) := by
  refine ⟨?_, ?_, by decide, by decide⟩
  · intro v v' rest
    simp [redactEntries, h]
  · intro v rest
    simp [redactEntries, h]

theorem claim1_witness :
    isSensitiveKey "password" DEFAULT_CONFIG = true
    ∧ redactObject passwordKeepObj DEFAULT_CONFIG
        = .obj (.cons "keep" (.num 1) .nil) :=
  ⟨by decide,
    (claim1_sensitive_key_branch DEFAULT_CONFIG "password" (by decide)).2.2.1⟩

/-- C2: the claim says a key that case-insensitively equals an exact
property name is always classified sensitive, naming "creditCardNumber".
The code lowercases the key and then tests exact, case-sensitive membership
in `sensitiveProperties`, whose default entry "creditCardNumber" is not
lowercase — so the key "creditCardNumber" (present verbatim in the default
list, and caught by no substring rule) is classified NOT sensitive, and a
credit-card number survives redaction untouched. -/
theorem claim2_exact_name_miss :
    DEFAULT_CONFIG.sensitiveProperties.contains "creditCardNumber" = true
    ∧ lowerStr "creditCardNumber" = "creditcardnumber"
    ∧ isSensitiveKey "creditCardNumber" DEFAULT_CONFIG = false
    ∧ redactObject
        (.obj (.cons "creditCardNumber" (.str "4111111111111111") .nil))
        DEFAULT_CONFIG
      = .obj (.cons "creditCardNumber" (.str "4111111111111111") .nil) :=
  ⟨by decide, by decide, by decide, by decide⟩

/-- C3: for every rule set, redaction of an array rebuilds it element-wise
by the recursive call — same length, same order, nothing dropped — and a
top-level primitive (hence any bare array element that is a primitive) is
returned unchanged without consulting the value patterns; in particular
`\x7b"items": ["12345", "hello"]\x7d` is unchanged under a 4-to-6-digit
value pattern even though "12345" itself matches that pattern. -/
theorem claim3_arrays_elementwise (config : Config) (items : JsonArr) (i : Nat) :
    redactObject (.arr items) config = .arr (redactArr items config)
    ∧ (redactArr items config).length = items.length
    ∧ (redactArr items config).get? i
        = (items.get? i).map (fun x => redactObject x config)
    ∧ (∀ s : String, redactObject (.str s) config = .str s)
    ∧ (∀ n : Int, redactObject (.num n) config = .num n)
    ∧ (∀ b : Bool, redactObject (.bool b) config = .bool b)
    ∧ redactObject .null config = .null
    ∧ isSensitiveValue (.str "12345") pinOnlyConfig = true
    ∧ redactObject itemsExample pinOnlyConfig = itemsExample :=
  ⟨rfl, redactArr_length config items, redactArr_get config items i,
    fun _ => rfl, fun _ => rfl, fun _ => rfl, rfl, by decide, by decide⟩

/-- C4 counterexample: under the rule set whose single value pattern is the
unanchored `/a/`, the code classifies the value "ba" sensitive (JavaScript
`test` searches for a match anywhere in the string), yet no pattern of the
rule set succeeds as a full-pattern test against the entire string — so
"returns true iff some pattern ... applied as a full-pattern test against
the entire string (not a partial/substring search), succeeds" is false of
the code. -/
theorem claim4_counterexample :
    isSensitiveValue (.str "ba") partialConfig = true
    ∧ partialConfig.sensitivePatterns.any
        (fun p => fullPatternTest p "ba") = false :=
  ⟨by decide, by decide⟩

/-- C4 (amended): for every value and every rule set, `isSensitiveValue`
returns false for any non-string value, and for a string value returns true
iff some pattern in the value patterns matches somewhere in the string in
the JavaScript `test` sense — a contiguous segment matches, constrained to
touch the start/end of the string only by the pattern's own anchors — not
necessarily a full match of the entire string. (All default patterns are
anchored on both sides, so for the default rule set this coincides with a
full-string test.) -/
theorem claim4_value_classification (config : Config) (value : Json) :
    isSensitiveValue value config = true ↔
      ∃ s, value = .str s ∧ ∃ p ∈ config.sensitivePatterns, jsMatches p s := by
  cases value <;> simp [isSensitiveValue, List.any_eq_true, jsTest_iff]

/-- C5: the claim says value-pattern strings from an override are compiled
into regular expressions at construction, with a `ConfigError` fallback.
The code's `loadConfig` merely spreads the parsed user object onto the
defaults: the supplied pattern string is stored raw, every pattern of the
resulting config fails `isRegex`, and the first time a string value is
checked the JavaScript `pat.test` call on the raw string throws a
`TypeError` (modelled `none`) — crashing the run instead of degrading. -/
theorem claim5_no_compilation :
    (loadConfig (some (.parsed stringPatternUser))).sensitivePatterns
        = [.rawStr "^\\d+$"]
    ∧ (loadConfig (some (.parsed stringPatternUser))).sensitivePatterns.all
        JsPatternVal.isRegex = false
    ∧ dynIsSensitiveValue (.str "1234")
        (loadConfig (some (.parsed stringPatternUser))) = none :=
  ⟨rfl, rfl, rfl⟩

/-- C6: the spread-merge is shallow field-wise replacement: each field of
the result is the override's value when supplied and the base's otherwise;
in particular an override supplying only `sensitiveKeys: ["foo"]` keeps the
default exact names and (compiled) value patterns and replaces the key
patterns wholesale with `["foo"]`. -/
theorem claim6_shallow_merge (base : Config) (user : UserConfig) :
    (spreadMerge base user).sensitiveKeys
        = user.sensitiveKeys.getD base.sensitiveKeys
    ∧ (spreadMerge base user).sensitiveProperties
        = user.sensitiveProperties.getD base.sensitiveProperties
    ∧ (spreadMerge base user).redactionText
        = user.redactionText.getD base.redactionText
    ∧ (spreadMerge base user).preserveKeys
        = user.preserveKeys.getD base.preserveKeys
    ∧ (user.sensitivePatterns = none →
        (spreadMerge base user).sensitivePatterns
          = base.sensitivePatterns.map .regex)
    ∧ (∀ ss, user.sensitivePatterns = some ss →
        (spreadMerge base user).sensitivePatterns = ss.map .rawStr)
    ∧ (spreadMerge DEFAULT_CONFIG fooOnlyUser).sensitiveKeys = ["foo"]
    ∧ (spreadMerge DEFAULT_CONFIG fooOnlyUser).sensitiveProperties
        = DEFAULT_CONFIG.sensitiveProperties
    ∧ (spreadMerge DEFAULT_CONFIG fooOnlyUser).sensitivePatterns
        = DEFAULT_CONFIG.sensitivePatterns.map .regex
    ∧ (spreadMerge DEFAULT_CONFIG fooOnlyUser).redactionText
        = DEFAULT_CONFIG.redactionText
    ∧ (spreadMerge DEFAULT_CONFIG fooOnlyUser).preserveKeys
        = DEFAULT_CONFIG.preserveKeys := by
  refine ⟨rfl, rfl, rfl, rfl, ?_, ?_, rfl, rfl, rfl, rfl, rfl⟩
  · intro h
    simp [spreadMerge, h]
  · intro ss h
    simp [spreadMerge, h]

theorem claim6_witness :
    (spreadMerge DEFAULT_CONFIG fooOnlyUser).sensitiveKeys = ["foo"]
    ∧ (spreadMerge DEFAULT_CONFIG fooOnlyUser).sensitiveProperties
        = DEFAULT_CONFIG.sensitiveProperties :=
  ⟨(claim6_shallow_merge DEFAULT_CONFIG fooOnlyUser).2.2.2.2.2.2.1,
    (claim6_shallow_merge DEFAULT_CONFIG fooOnlyUser).2.2.2.2.2.2.2.1⟩

/-- C7: whenever the override source is absent, unreadable or unparseable,
`loadConfig` returns exactly the default configuration (the caught error
branch), so the run proceeds with a usable rule set: every value pattern of
that fallback is a compiled regular expression. -/
theorem claim7_fallback_on_parse_error :
    loadConfig (some .readError) = defaultJsConfig
    ∧ loadConfig none = defaultJsConfig
    ∧ defaultJsConfig.sensitivePatterns.all JsPatternVal.isRegex = true
    ∧ defaultJsConfig.sensitiveKeys = DEFAULT_CONFIG.sensitiveKeys
    ∧ defaultJsConfig.sensitiveProperties = DEFAULT_CONFIG.sensitiveProperties
    ∧ defaultJsConfig.redactionText = DEFAULT_CONFIG.redactionText
    ∧ defaultJsConfig.preserveKeys = DEFAULT_CONFIG.preserveKeys :=
  ⟨rfl, rfl, rfl, rfl, rfl, rfl, rfl⟩

/-- C8: redaction is idempotent — a second pass over the output of the
first changes nothing, for every acyclic JSON value and every rule set. -/
theorem claim8_idempotent (config : Config) (v : Json) :
    redactObject (redactObject v config) config = redactObject v config :=
  redactIdemV config v

/-- C9: shape preservation — on an input in which no key anywhere is
sensitive and no object-property value anywhere matches a value pattern,
redaction returns the input unchanged (a deep-equal copy). -/
theorem claim9_shape_preservation (config : Config) (v : Json)
    (h : cleanV v config = true) : redactObject v config = v :=
  cleanIdV config v h

theorem claim9_witness :
    cleanV cleanExample DEFAULT_CONFIG = true
    ∧ redactObject cleanExample DEFAULT_CONFIG = cleanExample :=
  ⟨by decide,
    claim9_shape_preservation DEFAULT_CONFIG cleanExample (by decide)⟩

/-- C10: output invariant — in every object occurring anywhere in the
redacted result, a key satisfying `isSensitiveKey` occurs only when
`preserveKeys` is true, and then its value is exactly the redaction text;
with `preserveKeys` false no sensitive key occurs at all. -/
theorem claim10_output_invariant (config : Config) (v : Json) :
    goodV (redactObject v config) config = true :=
  redactGoodV config v

end RedactSensitive
